import Mathlib

/-!
Verification development for the TennisPredictionService utility scripts.

The repository contains two Python scripts:

* `src/Python/CSVMerger.py` — lists a directory, keeps the `.csv` entries,
  sorts them, filters those whose filename before the first `.` parses as an
  integer year in `[2005, 2025]`, reads each one (UTF-8 with a Latin-1
  fallback on `UnicodeDecodeError`), concatenates the resulting data frames
  with `pd.concat(..., ignore_index=True)` and writes the merged table with
  `to_csv(index=False, encoding="utf-8")`.
* `src/Python/CopyDataToJava.py` — checks that a hardcoded source file
  exists (printing a message and exiting with status 1 if not), creates the
  destination resources directory with `os.makedirs(..., exist_ok=True)` and
  copies the file with `shutil.copy2`.

The embedding below models filenames as `String`s (sequences of code
points, matching Python `str`), file bytes as `List Nat`, parsed tabular
content as a `DataFrame` (column names plus rows of optional cells, where
`none` is pandas `NaN`), and the filesystem touched by the copier as an
explicit record.  Steps of the scripts that can raise a Python exception
are modelled in `Except`.
-/

deriving instance DecidableEq for Except

namespace TennisPrediction

/-! ### Python `int()` on a string of characters

`CSVMerger.py` line 13 applies `int(f.split(".")[0])` to every listed
`.csv` filename.  Python's `int` strips surrounding whitespace, accepts an
optional single `+`/`-` sign, then requires a nonempty run of decimal
digits in which single underscores may appear between digits; anything
else raises `ValueError`.  We model the ASCII fragment of this grammar
(Unicode digits and exotic whitespace are out of scope for the filenames
considered here). -/

def isAsciiDigit (c : Char) : Bool :=
  decide ('0' ≤ c) && decide (c ≤ '9')

def isPySpace (c : Char) : Bool :=
  c = ' ' || c = '\t' || c = '\n' || c = '\x0b' || c = '\x0c' || c = '\r'

/-- Validity of the part of an integer literal after its first digit:
digits, with single underscores allowed only between digits. -/
def digitsTailOk : List Char → Bool
  | [] => true
  | '_' :: c :: cs => isAsciiDigit c && digitsTailOk cs
  | c :: cs => isAsciiDigit c && digitsTailOk cs

/-- A nonempty digit run with single underscores between digits. -/
def digitsOk : List Char → Bool
  | [] => false
  | c :: cs => isAsciiDigit c && digitsTailOk cs

def digitVal (c : Char) : Nat := c.toNat - '0'.toNat

def digitsVal (ds : List Char) : Nat :=
  ds.foldl (fun acc c => acc * 10 + digitVal c) 0

def stripSpaces (cs : List Char) : List Char :=
  ((cs.dropWhile isPySpace).reverse.dropWhile isPySpace).reverse

/-- Model of Python `int(s)` on the character sequence of `s`:
`some n` when `int` succeeds with value `n`, `none` when it raises
`ValueError`. -/
def pyInt (cs : List Char) : Option Int :=
  match stripSpaces cs with
  | '-' :: ds =>
      if digitsOk ds then some (-(digitsVal (ds.filter (fun c => c ≠ '_')) : Int))
      else none
  | '+' :: ds =>
      if digitsOk ds then some ((digitsVal (ds.filter (fun c => c ≠ '_')) : Int))
      else none
  | ds =>
      if digitsOk ds then some ((digitsVal (ds.filter (fun c => c ≠ '_')) : Int))
      else none

/-! ### Discover and filter (`CSVMerger.py` lines 10–13) -/

/-- Python `f.endswith(".csv")` on the code points of `f`. -/
def endsWithCsv (f : String) : Bool :=
  List.isSuffixOf ".csv".data f.data

/-- Python `f.split(".")[0]`: the characters before the first `.`
(the whole string when there is no dot). -/
def beforeFirstDot (f : String) : List Char :=
  f.data.takeWhile (fun c => c ≠ '.')

/-- `int(f.split(".")[0])` for a filename `f`. -/
def yearOf (f : String) : Option Int :=
  pyInt (beforeFirstDot f)

/-- Lexicographic order on sequences of code points: Python's `<=` on
strings.  `[] ≤ l`; a nonempty list is never `≤ []`; otherwise compare the
heads by code point and recurse on equal heads. -/
def lexLe : List Char → List Char → Bool
  | [], _ => true
  | _ :: _, [] => false
  | a :: as, b :: bs => if a = b then lexLe as bs else decide (a.toNat < b.toNat)

/-- Python `a <= b` on strings: lexicographic by code point. -/
def strLe (a b : String) : Bool :=
  lexLe a.data b.data

/-- `strLe` as a relation, for `List.insertionSort` and sortedness
statements. -/
abbrev strLeRel (a b : String) : Prop := strLe a b = true

/-- Line 10: `sorted([f for f in os.listdir(folder_path) if f.endswith(".csv")])`.
Python `sorted` on strings is a stable sort by code-point lexicographic
order, which is exactly `List.insertionSort` with `strLeRel`. -/
def csv_files (entries : List String) : List String :=
  List.insertionSort strLeRel (entries.filter endsWithCsv)

/-- Errors the merger can raise. -/
inductive MergeError where
  /-- `ValueError` from `int(...)` on a non-numeric filename stem. -/
  | unparsableName (f : String)
  /-- `ValueError: No objects to concatenate` from `pd.concat([])`. -/
  | noObjectsToConcat
  deriving DecidableEq, Repr

/-- Line 13: `[f for f in csv_files if 2005 <= int(f.split(".")[0]) <= 2025]`.
The comprehension applies `int` to every element in order and raises on the
first failure; otherwise it keeps the files whose year is in `[2005, 2025]`. -/
def filterYears : List String → Except MergeError (List String)
  | [] => Except.ok []
  | f :: fs =>
      match yearOf f with
      | none => Except.error (MergeError.unparsableName f)
      | some y =>
          match filterYears fs with
          | Except.error e => Except.error e
          | Except.ok rest =>
              if 2005 ≤ y ∧ y ≤ 2025 then Except.ok (f :: rest)
              else Except.ok rest

/-- The filtered file list of the merger, or the error it raises. -/
def csv_files_filtered (entries : List String) : Except MergeError (List String) :=
  filterYears (csv_files entries)

/-- The file names `2005.csv` … `2025.csv`, in ascending order: the
eligible files of the directory layout the scripts are written for. -/
def yearFiles : List String :=
  ["2005.csv", "2006.csv", "2007.csv", "2008.csv", "2009.csv", "2010.csv",
   "2011.csv", "2012.csv", "2013.csv", "2014.csv", "2015.csv", "2016.csv",
   "2017.csv", "2018.csv", "2019.csv", "2020.csv", "2021.csv", "2022.csv",
   "2023.csv", "2024.csv", "2025.csv"]

/-! ### Data frames and `pd.concat` (`CSVMerger.py` lines 15–26) -/

/-- The parsed tabular content of one CSV file: its header and its rows.
A cell holds `none` for pandas `NaN` (a value missing in that row). -/
structure DataFrame where
  cols : List String
  rows : List (List (Option String))
  deriving DecidableEq, Repr

/-- The value a reindexed row shows for column `c`: the cell at `c`'s
position when the originating frame has column `c`, and `NaN` (`none`)
otherwise. -/
def reindexCell (cols : List String) (row : List (Option String)) (c : String) :
    Option String :=
  match cols.findIdx? (fun c0 => c0 = c) with
  | some i => (row.get? i).getD none
  | none => none

/-- The column set of `pd.concat` with the default outer join and
`sort=False`: all columns in order of first appearance. -/
def colsUnion (dfs : List DataFrame) : List String :=
  dfs.foldl (fun acc df => acc ++ df.cols.filter (fun c => !acc.contains c)) []

/-- `pd.concat(df_list, ignore_index=True)`: the union of the columns, and
every row of every frame, in order, reindexed to the union. -/
def concatDFs (dfs : List DataFrame) : DataFrame :=
  let cs := colsUnion dfs
  { cols := cs
    rows := dfs.flatMap (fun df => df.rows.map (fun r => cs.map (reindexCell df.cols r))) }

/-- CSV field quoting as `to_csv` performs it (`QUOTE_MINIMAL`): a field
containing a comma, double quote, CR or LF is wrapped in double quotes
with inner quotes doubled. -/
def csvQuote (s : String) : String :=
  if s.data.any (fun c => c = ',' || c = '"' || c = '\n' || c = '\r')
  then "\"" ++ s.data.foldl
        (fun acc c => if c = '"' then acc ++ "\"\"" else acc.push c) "" ++ "\""
  else s

/-- One serialized CSV line; a `NaN` cell is written as the empty field. -/
def csvLine (cells : List (Option String)) : String :=
  String.intercalate "," (cells.map (fun c => csvQuote (c.getD "")))

/-- `merged_df.to_csv(output_file, index=False, encoding="utf-8")`:
header line, then one line per row, each terminated by a newline. -/
def toCsv (df : DataFrame) : String :=
  String.intercalate "\n" (csvLine (df.cols.map (fun c => some c)) :: df.rows.map csvLine)
    ++ "\n"

/-- What one run of the merger produces when it does not raise. -/
structure MergeOutput where
  df : DataFrame
  fileCount : Nat
  csvText : String
  deriving DecidableEq, Repr

/-- The whole merger run (`CSVMerger.py` lines 10–30) over a directory
listing `entries`; `getDF` gives the parsed content `pd.read_csv` returns
for each filename.  `pd.concat` on the empty list raises. -/
def mergeRunOfFiles (files : List String) (getDF : String → DataFrame) :
    Except MergeError MergeOutput :=
  if files.isEmpty then Except.error MergeError.noObjectsToConcat
  else
    let merged := concatDFs (files.map getDF)
    Except.ok { df := merged, fileCount := files.length, csvText := toCsv merged }

def mergeRun (entries : List String) (getDF : String → DataFrame) :
    Except MergeError MergeOutput :=
  match csv_files_filtered entries with
  | Except.error e => Except.error e
  | Except.ok files => mergeRunOfFiles files getDF

/-- A one-column, one-row parsed CSV file, used as concrete input data. -/
def oneCellDF : DataFrame := { cols := ["a"], rows := [[some "1"]] }

/-- The output of merging 21 copies of `oneCellDF`. -/
def mergedOneCell : MergeOutput :=
  { df := { cols := ["a"], rows := List.replicate 21 [some "1"] },
    fileCount := 21,
    csvText := "a\n1\n1\n1\n1\n1\n1\n1\n1\n1\n1\n1\n1\n1\n1\n1\n1\n1\n1\n1\n1\n1\n" }

/-! ### Encoding fallback (`CSVMerger.py` lines 17–22)

The script first calls `pd.read_csv(file_path, encoding="utf-8")` and, on
`UnicodeDecodeError` only, retries with `encoding="latin1"`.  We model the
decoding layer of that read: a file is a list of byte values, UTF-8
decoding either yields the list of code points or fails, and Latin-1
decoding maps each byte to the code point of the same value and never
fails. -/

/-- Latin-1 decoding: byte `b` decodes to code point `b`; total. -/
def latin1Decode (bs : List Nat) : List Nat := bs

/-- UTF-8 encoding of one code point (as `to_csv(encoding="utf-8")`
writes it). -/
def utf8EncodeChar (c : Nat) : List Nat :=
  if c < 0x80 then [c]
  else if c < 0x800 then [0xC0 + c / 64, 0x80 + c % 64]
  else if c < 0x10000 then [0xE0 + c / 4096, 0x80 + c / 64 % 64, 0x80 + c % 64]
  else [0xF0 + c / 262144, 0x80 + c / 4096 % 64, 0x80 + c / 64 % 64, 0x80 + c % 64]

/-- UTF-8 encoding of a sequence of code points. -/
def utf8Encode (cps : List Nat) : List Nat :=
  cps.flatMap utf8EncodeChar

/-- Strict UTF-8 decoding, byte by byte.  `pending` is the number of
continuation bytes still expected, `val` the partial code point
accumulated so far, and `lo` the smallest code point the current
sequence length may legally encode (the overlong check).  A completed
multi-byte sequence is rejected when it is overlong, encodes a
surrogate, or exceeds `U+10FFFF`; a stray or missing continuation byte
and a truncated final sequence are rejected as well — exactly the
sequences Python's strict `utf-8` codec refuses. -/
def utf8DecodeAux : Nat → Nat → Nat → List Nat → Option (List Nat)
  | 0, _, _, [] => some []
  | _ + 1, _, _, [] => none
  | 0, _, _, b :: rest =>
      if b < 0x80 then (utf8DecodeAux 0 0 0 rest).map (fun cs => b :: cs)
      else if 0xC0 ≤ b ∧ b < 0xE0 then utf8DecodeAux 1 (b - 0xC0) 0x80 rest
      else if 0xE0 ≤ b ∧ b < 0xF0 then utf8DecodeAux 2 (b - 0xE0) 0x800 rest
      else if 0xF0 ≤ b ∧ b < 0xF8 then utf8DecodeAux 3 (b - 0xF0) 0x10000 rest
      else none
  | p + 1, val, lo, b :: rest =>
      if 0x80 ≤ b ∧ b < 0xC0 then
        if p = 0 then
          if lo ≤ val * 64 + (b - 0x80) ∧
              ¬(0xD800 ≤ val * 64 + (b - 0x80) ∧ val * 64 + (b - 0x80) < 0xE000) ∧
              val * 64 + (b - 0x80) < 0x110000 then
            (utf8DecodeAux 0 0 0 rest).map (fun cs => (val * 64 + (b - 0x80)) :: cs)
          else none
        else utf8DecodeAux p (val * 64 + (b - 0x80)) lo rest
      else none

/-- Strict UTF-8 decoding of a whole byte sequence, as
`pd.read_csv(..., encoding="utf-8")` performs it: `some` of the decoded
code points, or `none` exactly when Python raises `UnicodeDecodeError`. -/
def utf8Decode (bs : List Nat) : Option (List Nat) :=
  utf8DecodeAux 0 0 0 bs

/-- The `try`/`except UnicodeDecodeError` of lines 17–22: decode the file's
bytes as UTF-8 and, exactly when that fails, decode them as Latin-1; there
is no further fallback and Latin-1 never fails, so the read is total. -/
def readDecoded (bs : List Nat) : List Nat :=
  match utf8Decode bs with
  | some cps => cps
  | none => latin1Decode bs

/-! ### The copier (`CopyDataToJava.py`)

The copier touches three paths built from a hardcoded project root: a
source file, a resources directory, and a destination file inside that
directory.  We model the filesystem state it can observe and change:
which directories exist and which files exist with what data.
`shutil.copy2` preserves file content and modification metadata, so a
file's data is its bytes plus its modification time. -/

/-- A file's content together with its modification metadata
(preserved by `shutil.copy2`). -/
structure FileData where
  content : List Nat
  mtime : Nat
  deriving DecidableEq, Repr

/-- The slice of filesystem state the copier reads and writes. -/
structure FS where
  dirs : List String
  files : List (String × FileData)
  deriving DecidableEq, Repr

/-- `os.makedirs(d, exist_ok=True)` for the destination directory:
creates `d` when absent, succeeds silently when it already exists. -/
def makedirs (dirs : List String) (d : String) : List String :=
  if d ∈ dirs then dirs else dirs ++ [d]

/-- Store `data` at `path`, overwriting any existing file there. -/
def setFile (files : List (String × FileData)) (path : String) (data : FileData) :
    List (String × FileData) :=
  if files.any (fun p => p.1 = path)
  then files.map (fun p => if p.1 = path then (path, data) else p)
  else files ++ [(path, data)]

/-- Look up the file at `path`. -/
def getFile (files : List (String × FileData)) (path : String) : Option FileData :=
  (files.find? (fun p => p.1 = path)).map (fun p => p.2)

/-- `CopyDataToJava.py` line 4: the hardcoded project root. -/
def project_root : String :=
  "C:\\Users\\Admin\\Downloads\\TennisPredictionService\\TennisPredictionService"

/-- Line 5: `os.path.join(project_root, "Data", "merged2005_2024.csv")`. -/
def source_file : String := project_root ++ "\\Data\\merged2005_2024.csv"

/-- Line 6: the destination resources directory. -/
def resources_dir : String := project_root ++ "\\Java\\src\\main\\resources"

/-- Line 7: the destination file inside the resources directory. -/
def destination_file : String := resources_dir ++ "\\merged2005_2024.csv"

/-- One run of `CopyDataToJava.py` on filesystem state `fs`: the process's
exit status and the resulting filesystem state.  When the source file does
not exist the script prints a message and calls `exit(1)` before touching
anything; otherwise it creates the resources directory (`exist_ok=True`),
copies the source to the destination with `shutil.copy2`, prints a message
and finishes with status 0. -/
def runCopier (fs : FS) : Nat × FS :=
  match getFile fs.files source_file with
  | none => (1, fs)
  | some data =>
      (0, { dirs := makedirs fs.dirs resources_dir
            files := setFile fs.files destination_file data })

/-! ## Order properties of the filename comparison -/

theorem char_toNat_inj {a b : Char} (h : a.toNat = b.toNat) : a = b :=
  Char.eq_of_val_eq (UInt32.eq_of_toBitVec_eq (BitVec.eq_of_toNat_eq h))

theorem lexLe_total : ∀ as bs : List Char, lexLe as bs = true ∨ lexLe bs as = true
  | [], _ => Or.inl rfl
  | _ :: _, [] => Or.inr rfl
  | a :: as, b :: bs => by
      by_cases h : a = b
      · subst h
        simpa [lexLe] using lexLe_total as bs
      · have hne : a.toNat ≠ b.toNat := fun hn => h (char_toNat_inj hn)
        have hba : ¬b = a := fun hb => h hb.symm
        simp only [lexLe, if_neg h, if_neg hba, decide_eq_true_eq]
        omega

theorem lexLe_trans : ∀ as bs cs : List Char,
    lexLe as bs = true → lexLe bs cs = true → lexLe as cs = true
  | [], _, _ => fun _ _ => rfl
  | _ :: _, [], _ => by simp [lexLe]
  | _ :: _, _ :: _, [] => by simp [lexLe]
  | a :: as, b :: bs, c :: cs => by
      by_cases hab : a = b <;> by_cases hbc : b = c
      · subst hab; subst hbc
        simpa [lexLe] using lexLe_trans as bs cs
      · subst hab
        simp only [lexLe, if_neg hbc]
        exact fun _ h2 => h2
      · subst hbc
        simp only [lexLe, if_neg hab]
        exact fun h1 _ => h1
      · intro h1 h2
        simp only [lexLe, if_neg hab, if_neg hbc, decide_eq_true_eq] at h1 h2
        by_cases hac : a = c
        · exfalso
          have : a.toNat = c.toNat := by rw [hac]
          omega
        · have hne : a.toNat ≠ c.toNat := fun hn => hac (char_toNat_inj hn)
          simp only [lexLe, if_neg hac, decide_eq_true_eq]
          omega

theorem lexLe_antisymm : ∀ as bs : List Char,
    lexLe as bs = true → lexLe bs as = true → as = bs
  | [], [] => fun _ _ => rfl
  | [], _ :: _ => by simp [lexLe]
  | _ :: _, [] => by simp [lexLe]
  | a :: as, b :: bs => by
      by_cases h : a = b
      · subst h
        intro h1 h2
        simp only [lexLe, if_pos rfl] at h1 h2
        exact congrArg (a :: ·) (lexLe_antisymm as bs h1 h2)
      · have hba : ¬b = a := fun hb => h hb.symm
        simp only [lexLe, if_neg h, if_neg hba, decide_eq_true_eq]
        intro h1 h2
        exfalso
        omega

instance : DecidableRel strLeRel :=
  fun a b => inferInstanceAs (Decidable (strLe a b = true))

instance : IsTotal String strLeRel :=
  ⟨fun a b => lexLe_total a.data b.data⟩

instance : IsTrans String strLeRel :=
  ⟨fun a b c h1 h2 => lexLe_trans a.data b.data c.data h1 h2⟩

instance : IsAntisymm String strLeRel :=
  ⟨fun a b h1 h2 => by
    cases a; cases b
    exact congrArg String.mk (lexLe_antisymm _ _ h1 h2)⟩

/-! ## Behaviour of the discover-and-filter step -/

theorem filterYears_ok_sublist (l : List String) :
    ∀ fs, filterYears l = Except.ok fs → List.Sublist fs l := by
  induction l with
  | nil =>
      intro fs h
      simp only [filterYears] at h
      injection h with h
      subst h
      exact List.Sublist.refl _
  | cons f l ih =>
      intro fs h
      simp only [filterYears] at h
      split at h
      · exact absurd h (by simp)
      · split at h
        · exact absurd h (by simp)
        · rename_i rest hrest
          split at h
          · injection h with h
            subst h
            exact List.Sublist.cons₂ f (ih rest hrest)
          · injection h with h
            subst h
            exact List.Sublist.cons f (ih rest hrest)

theorem filterYears_ok_mem (l : List String) :
    ∀ fs, filterYears l = Except.ok fs →
      ∀ f, f ∈ fs ↔ f ∈ l ∧ ∃ y, yearOf f = some y ∧ 2005 ≤ y ∧ y ≤ 2025 := by
  induction l with
  | nil =>
      intro fs h f
      simp only [filterYears] at h
      injection h with h
      subst h
      simp
  | cons g l ih =>
      intro fs h f
      simp only [filterYears] at h
      split at h
      · exact absurd h (by simp)
      · rename_i y hy
        split at h
        · exact absurd h (by simp)
        · rename_i rest hrest
          split at h
          · rename_i hrange
            injection h with h
            subst h
            constructor
            · intro hf
              rcases List.mem_cons.mp hf with rfl | hf'
              · exact ⟨List.mem_cons_self _ _, y, hy, hrange.1, hrange.2⟩
              · obtain ⟨hmem, hex⟩ := (ih rest hrest f).mp hf'
                exact ⟨List.mem_cons_of_mem _ hmem, hex⟩
            · rintro ⟨hmem, hex⟩
              rcases List.mem_cons.mp hmem with rfl | hmem'
              · exact List.mem_cons_self _ _
              · exact List.mem_cons_of_mem _ ((ih rest hrest f).mpr ⟨hmem', hex⟩)
          · rename_i hrange
            injection h with h
            subst h
            constructor
            · intro hf
              obtain ⟨hmem, hex⟩ := (ih _ hrest f).mp hf
              exact ⟨List.mem_cons_of_mem _ hmem, hex⟩
            · rintro ⟨hmem, hex⟩
              rcases List.mem_cons.mp hmem with rfl | hmem'
              · obtain ⟨y', hy', h1, h2⟩ := hex
                rw [hy] at hy'
                injection hy' with hy'
                subst hy'
                exact absurd ⟨h1, h2⟩ hrange
              · exact (ih _ hrest f).mpr ⟨hmem', hex⟩

theorem filterYears_error_of_none (l : List String) (f : String)
    (hf : f ∈ l) (hy : yearOf f = none) :
    ∃ g, g ∈ l ∧ yearOf g = none ∧
      filterYears l = Except.error (MergeError.unparsableName g) := by
  induction l with
  | nil => cases hf
  | cons g l ih =>
      cases hg : yearOf g with
      | none =>
          exact ⟨g, List.mem_cons_self _ _, hg, by simp [filterYears, hg]⟩
      | some y =>
          have hf' : f ∈ l := by
            rcases List.mem_cons.mp hf with rfl | h
            · rw [hg] at hy
              exact absurd hy (by simp)
            · exact h
          obtain ⟨g', hm, hn, he⟩ := ih hf'
          exact ⟨g', List.mem_cons_of_mem _ hm, hn, by simp [filterYears, hg, he]⟩

theorem mem_csv_files {entries : List String} {f : String} :
    f ∈ csv_files entries ↔ f ∈ entries ∧ endsWithCsv f = true := by
  unfold csv_files
  rw [List.mem_insertionSort]
  exact List.mem_filter

theorem csv_files_sorted (entries : List String) :
    List.Sorted strLeRel (csv_files entries) :=
  List.sorted_insertionSort strLeRel _

/-! ## Behaviour of `pd.concat` in the model -/

theorem mem_colsUnion_foldl (dfs : List DataFrame) (acc : List String) (c : String) :
    (c ∈ dfs.foldl (fun acc df => acc ++ df.cols.filter (fun c0 => !acc.contains c0)) acc) ↔
      c ∈ acc ∨ ∃ df ∈ dfs, c ∈ df.cols := by
  induction dfs generalizing acc with
  | nil => simp
  | cons df dfs ih =>
      simp only [List.foldl_cons, ih, List.mem_append, List.mem_filter]
      constructor
      · rintro ((h | ⟨h1, _⟩) | ⟨df', hd, hc⟩)
        · exact Or.inl h
        · exact Or.inr ⟨df, List.mem_cons_self _ _, h1⟩
        · exact Or.inr ⟨df', List.mem_cons_of_mem _ hd, hc⟩
      · rintro (h | ⟨df', hd, hc⟩)
        · exact Or.inl (Or.inl h)
        · rcases List.mem_cons.mp hd with rfl | hd'
          · by_cases hacc : c ∈ acc
            · exact Or.inl (Or.inl hacc)
            · exact Or.inl (Or.inr ⟨hc, by simpa using hacc⟩)
          · exact Or.inr ⟨df', hd', hc⟩

theorem mem_colsUnion (dfs : List DataFrame) (c : String) :
    c ∈ colsUnion dfs ↔ ∃ df ∈ dfs, c ∈ df.cols := by
  unfold colsUnion
  rw [mem_colsUnion_foldl]
  simp

theorem concatDFs_cols (dfs : List DataFrame) :
    (concatDFs dfs).cols = colsUnion dfs := rfl

theorem concatDFs_rows (dfs : List DataFrame) :
    (concatDFs dfs).rows =
      dfs.flatMap (fun df =>
        df.rows.map (fun r => (colsUnion dfs).map (reindexCell df.cols r))) := rfl

theorem concatDFs_length (dfs : List DataFrame) :
    (concatDFs dfs).rows.length = (dfs.map (fun df => df.rows.length)).sum := by
  rw [concatDFs_rows, List.length_flatMap]
  congr 1
  apply List.map_congr_left
  intro df _
  simp [Function.comp]

theorem reindexCell_of_not_mem {cols : List String} {row : List (Option String)}
    {c : String} (h : c ∉ cols) : reindexCell cols row c = none := by
  have hidx : cols.findIdx? (fun c0 => c0 = c) = none :=
    List.findIdx?_eq_none_iff.mpr (fun x hx => by
      simp only [decide_eq_false_iff_not]
      rintro rfl
      exact h hx)
  simp [reindexCell, hidx]

/-! ## Shape of a successful merger run -/

theorem mergeRun_eq_of_filtered {entries : List String} {files : List String}
    (hf : csv_files_filtered entries = Except.ok files) (getDF : String → DataFrame) :
    mergeRun entries getDF = mergeRunOfFiles files getDF := by
  unfold mergeRun
  rw [hf]

theorem mergeRun_ok_eq {entries : List String} {getDF : String → DataFrame}
    {files : List String} {out : MergeOutput}
    (hf : csv_files_filtered entries = Except.ok files)
    (hr : mergeRun entries getDF = Except.ok out) :
    out.df = concatDFs (files.map getDF) ∧ out.fileCount = files.length ∧
      out.csvText = toCsv (concatDFs (files.map getDF)) := by
  rw [mergeRun_eq_of_filtered hf] at hr
  unfold mergeRunOfFiles at hr
  by_cases he : files.isEmpty
  · rw [if_pos he] at hr
    exact absurd hr (by simp)
  · rw [if_neg he] at hr
    injection hr with hr
    subst hr
    exact ⟨rfl, rfl, rfl⟩

/-! ## The encoding fallback -/

theorem utf8Encode_cons (c : Nat) (cs : List Nat) :
    utf8Encode (c :: cs) = utf8EncodeChar c ++ utf8Encode cs := by
  rw [utf8Encode, utf8Encode, List.flatMap_cons]

/-- Encoding code points below 256 — the image of Latin-1 decoding — as
UTF-8 and decoding the result again is the identity: the characters of a
Latin-1 file survive into the UTF-8 output unchanged. -/
theorem utf8Decode_utf8Encode (cps : List Nat) (h : ∀ c ∈ cps, c < 256) :
    utf8Decode (utf8Encode cps) = some cps := by
  unfold utf8Decode
  induction cps with
  | nil => rfl
  | cons c cs ih =>
      have hc : c < 256 := h c (List.mem_cons_self _ _)
      have hrec := ih (fun x hx => h x (List.mem_cons_of_mem _ hx))
      rcases Nat.lt_or_ge c 0x80 with h1 | h1
      · have henc : utf8EncodeChar c = [c] := by rw [utf8EncodeChar, if_pos h1]
        rw [utf8Encode_cons, henc, List.singleton_append]
        rw [utf8DecodeAux, if_pos h1, hrec]
        rfl
      · have h2 : c < 0x800 := by omega
        have henc : utf8EncodeChar c = [0xC0 + c / 64, 0x80 + c % 64] := by
          rw [utf8EncodeChar, if_neg (by omega), if_pos h2]
        rw [utf8Encode_cons, henc, List.cons_append, List.cons_append, List.nil_append]
        rw [utf8DecodeAux, if_neg (by omega), if_pos (by omega)]
        rw [utf8DecodeAux, if_pos (by omega), if_pos rfl, if_pos (by omega)]
        simp only [show 0xC0 + c / 64 - 0xC0 = c / 64 from by omega,
          show 0x80 + c % 64 - 0x80 = c % 64 from by omega,
          show c / 64 * 64 + c % 64 = c from by omega]
        rw [hrec]
        rfl

/-! ## The claims -/

/-- C1: for an input directory whose eligible files are exactly
`2005.csv` … `2025.csv`, the merged output's row count equals the sum of
the input files' row counts. -/
theorem claim1_merged_row_count (entries : List String) (getDF : String → DataFrame)
    (out : MergeOutput)
    (hf : csv_files_filtered entries = Except.ok yearFiles)
    (hr : mergeRun entries getDF = Except.ok out) :
    out.df.rows.length = (yearFiles.map (fun f => (getDF f).rows.length)).sum := by
  obtain ⟨hdf, -, -⟩ := mergeRun_ok_eq hf hr
  rw [hdf, concatDFs_length, List.map_map]
  rfl

theorem claim1_merged_row_count_witness :
    csv_files_filtered yearFiles = Except.ok yearFiles ∧
    mergeRun yearFiles (fun _ => oneCellDF) = Except.ok mergedOneCell ∧
    mergedOneCell.df.rows.length =
      (yearFiles.map (fun f => ((fun _ => oneCellDF) f).rows.length)).sum :=
  ⟨by decide, by decide,
    claim1_merged_row_count yearFiles (fun _ => oneCellDF) mergedOneCell (by decide) (by decide)⟩

/-- C4: a directory entry ending in `.csv` is kept iff the part of its
name before the first dot parses as an integer in [2005, 2025]; in
particular `2004.csv` and `2026.csv` are never kept. -/
theorem claim4_filter_membership (entries files : List String)
    (hf : csv_files_filtered entries = Except.ok files) :
    (∀ f, f ∈ files ↔ f ∈ entries ∧ endsWithCsv f = true ∧
        ∃ y, yearOf f = some y ∧ 2005 ≤ y ∧ y ≤ 2025) ∧
    "2004.csv" ∉ files ∧ "2026.csv" ∉ files := by
  have hf' : filterYears (csv_files entries) = Except.ok files := hf
  have hiff : ∀ f, f ∈ files ↔ f ∈ entries ∧ endsWithCsv f = true ∧
      ∃ y, yearOf f = some y ∧ 2005 ≤ y ∧ y ≤ 2025 := by
    intro f
    rw [filterYears_ok_mem _ _ hf' f, mem_csv_files, and_assoc]
  refine ⟨hiff, ?_, ?_⟩
  · intro hin
    obtain ⟨-, -, y, hy, h1, h2⟩ := (hiff _).mp hin
    have hy4 : yearOf "2004.csv" = some 2004 := by decide
    rw [hy4] at hy
    injection hy with hy
    omega
  · intro hin
    obtain ⟨-, -, y, hy, h1, h2⟩ := (hiff _).mp hin
    have hy6 : yearOf "2026.csv" = some 2026 := by decide
    rw [hy6] at hy
    injection hy with hy
    omega

theorem claim4_filter_membership_witness :
    csv_files_filtered ["2004.csv", "2005.csv", "2026.csv"] = Except.ok ["2005.csv"] ∧
    "2004.csv" ∉ (["2005.csv"] : List String) ∧ "2026.csv" ∉ (["2005.csv"] : List String) :=
  ⟨by decide, (claim4_filter_membership ["2004.csv", "2005.csv", "2026.csv"] ["2005.csv"] (by decide)).2⟩

/-- C5: a `.csv` entry whose name before the first dot does not parse as
an integer makes the discover-and-filter step raise, so the whole run
fails with that error and no output is produced. -/
theorem claim5_unparsable_fatal (entries : List String) (getDF : String → DataFrame)
    (f : String) (hmem : f ∈ entries) (hcsv : endsWithCsv f = true)
    (hbad : yearOf f = none) :
    ∃ g, g ∈ entries ∧ endsWithCsv g = true ∧ yearOf g = none ∧
      csv_files_filtered entries = Except.error (MergeError.unparsableName g) ∧
      mergeRun entries getDF = Except.error (MergeError.unparsableName g) := by
  have hf : f ∈ csv_files entries := mem_csv_files.mpr ⟨hmem, hcsv⟩
  obtain ⟨g, hg, hgn, he⟩ := filterYears_error_of_none _ f hf hbad
  have hg' := mem_csv_files.mp hg
  have he' : csv_files_filtered entries = Except.error (MergeError.unparsableName g) := he
  refine ⟨g, hg'.1, hg'.2, hgn, he', ?_⟩
  unfold mergeRun
  rw [he']

theorem claim5_unparsable_fatal_witness :
    ("notes.csv" ∈ (["notes.csv", "2005.csv"] : List String) ∧
      endsWithCsv "notes.csv" = true ∧ yearOf "notes.csv" = none) ∧
    ∃ g, g ∈ (["notes.csv", "2005.csv"] : List String) ∧ endsWithCsv g = true ∧
      yearOf g = none ∧
      csv_files_filtered ["notes.csv", "2005.csv"] =
        Except.error (MergeError.unparsableName g) ∧
      mergeRun ["notes.csv", "2005.csv"] (fun _ => oneCellDF) =
        Except.error (MergeError.unparsableName g) :=
  ⟨⟨by decide, by decide, by decide⟩,
    claim5_unparsable_fatal ["notes.csv", "2005.csv"] (fun _ => oneCellDF) "notes.csv"
      (by decide) (by decide) (by decide)⟩

/-- C9: when the filtered input set is empty the merger raises at the
concatenation step and writes no output. -/
theorem claim9_empty_concat_error (entries : List String) (getDF : String → DataFrame)
    (h : csv_files_filtered entries = Except.ok []) :
    mergeRun entries getDF = Except.error MergeError.noObjectsToConcat := by
  rw [mergeRun_eq_of_filtered h]
  rfl

theorem claim9_empty_concat_error_witness :
    csv_files_filtered ["2004.csv"] = Except.ok [] ∧
    mergeRun ["2004.csv"] (fun _ => oneCellDF) = Except.error MergeError.noObjectsToConcat :=
  ⟨by decide, claim9_empty_concat_error ["2004.csv"] (fun _ => oneCellDF) (by decide)⟩

/-- C10: the merger's result does not depend on the order in which the
directory listing returns the entries: any permutation of the listing
produces the identical output. -/
theorem claim10_order_independent (entries₁ entries₂ : List String)
    (getDF : String → DataFrame) (hperm : List.Perm entries₁ entries₂) :
    mergeRun entries₁ getDF = mergeRun entries₂ getDF := by
  have hcsv : csv_files entries₁ = csv_files entries₂ := by
    refine List.eq_of_perm_of_sorted (r := strLeRel) ?_ ?_ ?_
    · exact (List.perm_insertionSort _ _).trans
        ((hperm.filter _).trans (List.perm_insertionSort _ _).symm)
    · exact csv_files_sorted entries₁
    · exact csv_files_sorted entries₂
  unfold mergeRun csv_files_filtered
  rw [hcsv]

theorem claim10_order_independent_witness :
    List.Perm ["2006.csv", "2005.csv"] ["2005.csv", "2006.csv"] ∧
    mergeRun ["2006.csv", "2005.csv"] (fun _ => oneCellDF) =
      mergeRun ["2005.csv", "2006.csv"] (fun _ => oneCellDF) :=
  ⟨List.Perm.swap _ _ _,
    claim10_order_independent ["2006.csv", "2005.csv"] ["2005.csv", "2006.csv"]
      (fun _ => oneCellDF) (List.Perm.swap _ _ _)⟩

/-- C2: the merged table's column set is the union of the input files'
column sets, and a row coming from a file that lacks some column has an
empty (`NaN`) value in that column of the output. -/
theorem claim2_columns_union (entries : List String) (getDF : String → DataFrame)
    (files : List String) (out : MergeOutput)
    (hf : csv_files_filtered entries = Except.ok files)
    (hr : mergeRun entries getDF = Except.ok out) :
    (∀ c, c ∈ out.df.cols ↔ ∃ f ∈ files, c ∈ (getDF f).cols) ∧
    (∀ f ∈ files, ∀ r ∈ (getDF f).rows,
      out.df.cols.map (reindexCell (getDF f).cols r) ∈ out.df.rows ∧
      ∀ (i : Nat) (c : String), out.df.cols[i]? = some c → c ∉ (getDF f).cols →
        (out.df.cols.map (reindexCell (getDF f).cols r))[i]? = some none) := by
  obtain ⟨hdf, -, -⟩ := mergeRun_ok_eq hf hr
  constructor
  · intro c
    rw [hdf, concatDFs_cols, mem_colsUnion]
    constructor
    · rintro ⟨df, hdm, hc⟩
      obtain ⟨f, hfm, rfl⟩ := List.mem_map.mp hdm
      exact ⟨f, hfm, hc⟩
    · rintro ⟨f, hfm, hc⟩
      exact ⟨getDF f, List.mem_map_of_mem _ hfm, hc⟩
  · intro f hfm r hrm
    constructor
    · rw [hdf, concatDFs_rows]
      apply List.mem_flatMap.mpr
      refine ⟨getDF f, List.mem_map_of_mem _ hfm, ?_⟩
      exact List.mem_map_of_mem _ hrm
    · intro i c hic hnot
      rw [hdf] at hic ⊢
      rw [List.getElem?_map (reindexCell (getDF f).cols r)
            (concatDFs (files.map getDF)).cols i, hic]
      simp [reindexCell_of_not_mem hnot]

theorem claim2_columns_union_witness :
    csv_files_filtered ["2005.csv", "2006.csv"] = Except.ok ["2005.csv", "2006.csv"] ∧
    mergeRun ["2005.csv", "2006.csv"]
      (fun f => if f = "2005.csv" then DataFrame.mk ["a", "b"] [[some "1", some "2"], [some "3", some "4"]]
                else DataFrame.mk ["a", "c"] [[some "5", some "6"], [some "7", some "8"], [some "9", some "0"]]) =
      Except.ok (MergeOutput.mk
        (DataFrame.mk ["a", "b", "c"]
          [[some "1", some "2", none], [some "3", some "4", none],
           [some "5", none, some "6"], [some "7", none, some "8"], [some "9", none, some "0"]])
        2 "a,b,c\n1,2,\n3,4,\n5,,6\n7,,8\n9,,0\n") ∧
    (∀ c, c ∈ (DataFrame.mk ["a", "b", "c"]
          [[some "1", some "2", none], [some "3", some "4", none],
           [some "5", none, some "6"], [some "7", none, some "8"], [some "9", none, some "0"]] : DataFrame).cols ↔
      ∃ f ∈ (["2005.csv", "2006.csv"] : List String), c ∈
        ((fun f => if f = "2005.csv" then DataFrame.mk ["a", "b"] [[some "1", some "2"], [some "3", some "4"]]
                   else DataFrame.mk ["a", "c"] [[some "5", some "6"], [some "7", some "8"], [some "9", some "0"]]) f).cols) :=
  ⟨by decide, by decide,
    (claim2_columns_union ["2005.csv", "2006.csv"]
      (fun f => if f = "2005.csv" then DataFrame.mk ["a", "b"] [[some "1", some "2"], [some "3", some "4"]]
                else DataFrame.mk ["a", "c"] [[some "5", some "6"], [some "7", some "8"], [some "9", some "0"]])
      ["2005.csv", "2006.csv"]
      (MergeOutput.mk
        (DataFrame.mk ["a", "b", "c"]
          [[some "1", some "2", none], [some "3", some "4", none],
           [some "5", none, some "6"], [some "7", none, some "8"], [some "9", none, some "0"]])
        2 "a,b,c\n1,2,\n3,4,\n5,,6\n7,,8\n9,,0\n")
      (by decide) (by decide)).1⟩

/-- C3: the filtered files are concatenated in lexicographically sorted
filename order, and row order within each file is preserved in the
merged output. -/
theorem claim3_concat_order (entries : List String) (getDF : String → DataFrame)
    (files : List String) (out : MergeOutput)
    (hf : csv_files_filtered entries = Except.ok files)
    (hr : mergeRun entries getDF = Except.ok out) :
    List.Sorted strLeRel files ∧
    out.df.rows = files.flatMap (fun f =>
      (getDF f).rows.map (fun r => out.df.cols.map (reindexCell (getDF f).cols r))) := by
  obtain ⟨hdf, -, -⟩ := mergeRun_ok_eq hf hr
  constructor
  · have hf' : filterYears (csv_files entries) = Except.ok files := hf
    exact List.Pairwise.sublist (filterYears_ok_sublist _ _ hf') (csv_files_sorted entries)
  · rw [hdf, concatDFs_rows, List.flatMap_map]
    rfl

theorem claim3_concat_order_witness :
    csv_files_filtered ["2006.csv", "2005.csv"] = Except.ok ["2005.csv", "2006.csv"] ∧
    mergeRun ["2006.csv", "2005.csv"] (fun _ => oneCellDF) =
      Except.ok (MergeOutput.mk (DataFrame.mk ["a"] [[some "1"], [some "1"]]) 2 "a\n1\n1\n") ∧
    List.Sorted strLeRel ["2005.csv", "2006.csv"] :=
  ⟨by decide, by decide,
    (claim3_concat_order ["2006.csv", "2005.csv"] (fun _ => oneCellDF)
      ["2005.csv", "2006.csv"]
      (MergeOutput.mk (DataFrame.mk ["a"] [[some "1"], [some "1"]]) 2 "a\n1\n1\n")
      (by decide) (by decide)).1⟩

/-- C6: each filtered file is decoded as UTF-8 first; exactly on a decode
failure the read is retried once with Latin-1 (which cannot fail, so there
is no further fallback), and the characters of a Latin-1 file survive
unchanged into the UTF-8 output. -/
theorem claim6_encoding_fallback (bs : List Nat) (hbytes : ∀ b ∈ bs, b < 256) :
    (∀ cps, utf8Decode bs = some cps → readDecoded bs = cps) ∧
    (utf8Decode bs = none →
      readDecoded bs = latin1Decode bs ∧
      utf8Decode (utf8Encode (readDecoded bs)) = some (latin1Decode bs)) := by
  constructor
  · intro cps h
    unfold readDecoded
    rw [h]
  · intro h
    have h1 : readDecoded bs = latin1Decode bs := by
      unfold readDecoded
      rw [h]
    refine ⟨h1, ?_⟩
    rw [h1]
    exact utf8Decode_utf8Encode bs hbytes

theorem claim6_encoding_fallback_witness :
    (∀ b ∈ ([76, 229, 115] : List Nat), b < 256) ∧
    utf8Decode [76, 229, 115] = none ∧
    readDecoded [76, 229, 115] = latin1Decode [76, 229, 115] ∧
    utf8Decode (utf8Encode (readDecoded [76, 229, 115])) =
      some (latin1Decode [76, 229, 115]) :=
  ⟨by decide, by decide,
    ((claim6_encoding_fallback [76, 229, 115] (by decide)).2 (by decide)).1,
    ((claim6_encoding_fallback [76, 229, 115] (by decide)).2 (by decide)).2⟩

/-- C7: when the hardcoded source file is absent the copier exits with
status 1 and leaves the filesystem untouched, so no file is created at
the destination; when the source exists it exits with status 0. -/
theorem claim7_copier_exit (fs : FS) :
    (getFile fs.files source_file = none → runCopier fs = (1, fs)) ∧
    (∀ d, getFile fs.files source_file = some d → (runCopier fs).1 = 0) := by
  constructor
  · intro h
    unfold runCopier
    rw [h]
  · intro d h
    unfold runCopier
    rw [h]

theorem claim7_copier_exit_witness :
    getFile (FS.mk [] []).files source_file = none ∧
    runCopier (FS.mk [] []) = (1, FS.mk [] []) ∧
    getFile (FS.mk [] [(source_file, FileData.mk [49] 7)]).files source_file =
      some (FileData.mk [49] 7) ∧
    (runCopier (FS.mk [] [(source_file, FileData.mk [49] 7)])).1 = 0 :=
  ⟨by decide, (claim7_copier_exit (FS.mk [] [])).1 (by decide), by decide,
    (claim7_copier_exit (FS.mk [] [(source_file, FileData.mk [49] 7)])).2
      (FileData.mk [49] 7) (by decide)⟩

theorem mem_makedirs (ds : List String) (e : String) : e ∈ makedirs ds e := by
  unfold makedirs
  split
  · assumption
  · simp

theorem makedirs_idem (ds : List String) (e : String) :
    makedirs (makedirs ds e) e = makedirs ds e := by
  show (if e ∈ makedirs ds e then makedirs ds e else makedirs ds e ++ [e]) = makedirs ds e
  rw [if_pos (mem_makedirs ds e)]

/-- C8: the copier's creation of the destination resources directory is
idempotent: run with the directory already present it succeeds and ends
in exactly the state of a run that had to create it. -/
theorem claim8_makedirs_idempotent (fs : FS) (d : FileData)
    (hsrc : getFile fs.files source_file = some d) :
    makedirs (makedirs fs.dirs resources_dir) resources_dir =
      makedirs fs.dirs resources_dir ∧
    runCopier (FS.mk (makedirs fs.dirs resources_dir) fs.files) = (0, (runCopier fs).2) ∧
    (runCopier fs).1 = 0 := by
  refine ⟨makedirs_idem _ _, ?_, ?_⟩
  · simp only [runCopier, hsrc, makedirs_idem]
  · simp only [runCopier, hsrc]

theorem claim8_makedirs_idempotent_witness :
    getFile (FS.mk [] [(source_file, FileData.mk [49] 7)]).files source_file =
      some (FileData.mk [49] 7) ∧
    runCopier (FS.mk (makedirs [] resources_dir) [(source_file, FileData.mk [49] 7)]) =
      (0, (runCopier (FS.mk [] [(source_file, FileData.mk [49] 7)])).2) ∧
    (runCopier (FS.mk [] [(source_file, FileData.mk [49] 7)])).1 = 0 :=
  ⟨by decide,
    ((claim8_makedirs_idempotent (FS.mk [] [(source_file, FileData.mk [49] 7)])
      (FileData.mk [49] 7) (by decide)).2).1,
    ((claim8_makedirs_idempotent (FS.mk [] [(source_file, FileData.mk [49] 7)])
      (FileData.mk [49] 7) (by decide)).2).2⟩

end TennisPrediction
